import Mathlib

/-!
Verification development for the Cassandra compaction filter
(`utilities/cassandra/cassandra_compaction_filter.h`).

The repository ships only the class declaration with an inline constructor;
the method bodies live outside the provided sources.  Accordingly the
constructor is embedded directly from the header, while each method body is
modelled from the specification (each such definition carries a doc comment
starting with `Modelled from the spec:`).
-/

namespace Cassandra

/-- A composite clustering key operand of the static `compare` function:
a byte payload (its size is the list length), the `kind` tag (an `int8_t`
in the source) and the clustering-key fragment count `ck_size` (an `int`). -/
structure CompositeKey where
  bytes : List Nat
  kind : Int
  ckSize : Int
deriving DecidableEq, Repr

/-- Three-way comparison of two byte sequences: lexicographic over the
shared leading bytes, and on a tie of those the shorter sequence sorts
first.  This realises the spec's byte-comparison step of `compare`. -/
def compareBytes : List Nat → List Nat → Int
  | [], [] => 0
  | [], _ :: _ => -1
  | _ :: _, [] => 1
  | a :: as, b :: bs => if a < b then -1 else if b < a then 1 else compareBytes as bs

/-- Three-way comparison of two integers, returning -1, 0 or 1. -/
def cmpInt (a b : Int) : Int := if a < b then -1 else if b < a then 1 else 0

/-- Modelled from the spec: the static member
`CassandraCompactionFilter::compare` (declared at
cassandra_compaction_filter.h:86-89; its body is not among the provided
sources).  Lexicographic byte comparison over the shared leading bytes of
the two payloads, shorter payload first on a tie, then the `kind` tags,
then the fragment counts `ck_size`. -/
def compare (str1 : List Nat) (kind1 : Int) (ck_size1 : Int)
    (str2 : List Nat) (kind2 : Int) (ck_size2 : Int) : Int :=
  let c := compareBytes str1 str2
  if c ≠ 0 then c
  else
    let ck := cmpInt kind1 kind2
    if ck ≠ 0 then ck else cmpInt ck_size1 ck_size2

/-- `compare` applied to two packaged composite keys. -/
def compareKey (a b : CompositeKey) : Int :=
  compare a.bytes a.kind a.ckSize b.bytes b.kind b.ckSize

theorem compareBytes_antisym (xs ys : List Nat) :
    compareBytes xs ys = -compareBytes ys xs := by
  induction xs generalizing ys with
  | nil => cases ys <;> simp [compareBytes]
  | cons a as ih =>
    cases ys with
    | nil => simp [compareBytes]
    | cons b bs =>
      simp only [compareBytes]
      rcases Nat.lt_trichotomy a b with h | h | h
      · simp [h, Nat.not_lt.mpr (Nat.le_of_lt h)]
      · subst h
        simp [Nat.lt_irrefl, ih]
      · simp [h, Nat.not_lt.mpr (Nat.le_of_lt h)]

theorem compareBytes_eq_zero_iff (xs ys : List Nat) :
    compareBytes xs ys = 0 ↔ xs = ys := by
  induction xs generalizing ys with
  | nil => cases ys <;> simp [compareBytes]
  | cons a as ih =>
    cases ys with
    | nil => simp [compareBytes]
    | cons b bs =>
      simp only [compareBytes]
      rcases Nat.lt_trichotomy a b with h | h | h
      · simp [h, Nat.ne_of_lt h]
      · subst h
        simp [Nat.lt_irrefl, ih]
      · simp [h, Nat.not_lt.mpr (Nat.le_of_lt h), (Nat.ne_of_lt h).symm]

theorem compareBytes_trichotomy (xs ys : List Nat) :
    compareBytes xs ys = -1 ∨ compareBytes xs ys = 0 ∨ compareBytes xs ys = 1 := by
  induction xs generalizing ys with
  | nil => cases ys <;> simp [compareBytes]
  | cons a as ih =>
    cases ys with
    | nil => simp [compareBytes]
    | cons b bs =>
      simp only [compareBytes]
      rcases Nat.lt_trichotomy a b with h | h | h
      · simp [h]
      · subst h
        simp [Nat.lt_irrefl, ih]
      · simp [h, Nat.not_lt.mpr (Nat.le_of_lt h)]

theorem compareBytes_trans_neg {xs ys zs : List Nat}
    (h1 : compareBytes xs ys = -1) (h2 : compareBytes ys zs = -1) :
    compareBytes xs zs = -1 := by
  induction xs generalizing ys zs with
  | nil =>
    cases ys with
    | nil => simp [compareBytes] at h1
    | cons b bs =>
      cases zs with
      | nil => simp [compareBytes] at h2
      | cons c cs => simp [compareBytes]
  | cons a as ih =>
    cases ys with
    | nil => simp [compareBytes] at h1
    | cons b bs =>
      cases zs with
      | nil => simp [compareBytes] at h2
      | cons c cs =>
        simp only [compareBytes] at h1 h2 ⊢
        rcases Nat.lt_trichotomy a b with hab | hab | hab
        · rcases Nat.lt_trichotomy b c with hbc | hbc | hbc
          · simp [Nat.lt_trans hab hbc]
          · subst hbc
            simp [hab]
          · exfalso
            simp [Nat.not_lt.mpr (Nat.le_of_lt hbc), hbc] at h2
        · subst hab
          rcases Nat.lt_trichotomy a c with hac | hac | hac
          · simp [hac]
          · subst hac
            simp only [if_neg (Nat.lt_irrefl a)] at h1 h2 ⊢
            exact ih h1 h2
          · exfalso
            simp [Nat.not_lt.mpr (Nat.le_of_lt hac), hac] at h2
        · exfalso
          simp [Nat.not_lt.mpr (Nat.le_of_lt hab), hab] at h1

theorem cmpInt_antisym (a b : Int) : cmpInt a b = -cmpInt b a := by
  unfold cmpInt
  rcases lt_trichotomy a b with h | h | h
  · simp [h, not_lt.mpr (le_of_lt h)]
  · subst h
    simp
  · simp [h, not_lt.mpr (le_of_lt h)]

theorem cmpInt_eq_zero_iff (a b : Int) : cmpInt a b = 0 ↔ a = b := by
  unfold cmpInt
  rcases lt_trichotomy a b with h | h | h
  · simp [h, ne_of_lt h]
  · subst h
    simp
  · simp [h, not_lt.mpr (le_of_lt h), (ne_of_lt h).symm]

theorem cmpInt_trichotomy (a b : Int) :
    cmpInt a b = -1 ∨ cmpInt a b = 0 ∨ cmpInt a b = 1 := by
  unfold cmpInt
  rcases lt_trichotomy a b with h | h | h
  · simp [h]
  · subst h
    simp
  · simp [h, not_lt.mpr (le_of_lt h)]

theorem cmpInt_trans_neg {a b c : Int}
    (h1 : cmpInt a b = -1) (h2 : cmpInt b c = -1) : cmpInt a c = -1 := by
  unfold cmpInt at h1 h2 ⊢
  rcases lt_trichotomy a b with hab | hab | hab <;>
    rcases lt_trichotomy b c with hbc | hbc | hbc <;>
      simp_all <;> omega

theorem compare_antisym (s1 : List Nat) (k1 c1 : Int) (s2 : List Nat) (k2 c2 : Int) :
    compare s1 k1 c1 s2 k2 c2 = -compare s2 k2 c2 s1 k1 c1 := by
  unfold compare
  rw [compareBytes_antisym s1 s2, cmpInt_antisym k1 k2, cmpInt_antisym c1 c2]
  by_cases hb : compareBytes s2 s1 = 0
  · by_cases hk : cmpInt k2 k1 = 0
    · simp [hb, hk]
    · simp [hb, hk]
  · simp [hb]

theorem compareBytes_self (s : List Nat) : compareBytes s s = 0 :=
  (compareBytes_eq_zero_iff s s).mpr rfl

theorem cmpInt_self (a : Int) : cmpInt a a = 0 := by
  simp [cmpInt]

theorem compare_eq_zero_iff (s1 : List Nat) (k1 c1 : Int) (s2 : List Nat) (k2 c2 : Int) :
    compare s1 k1 c1 s2 k2 c2 = 0 ↔ s1 = s2 ∧ k1 = k2 ∧ c1 = c2 := by
  unfold compare
  by_cases hb : compareBytes s1 s2 = 0
  · have hs := (compareBytes_eq_zero_iff s1 s2).mp hb
    subst hs
    by_cases hk : cmpInt k1 k2 = 0
    · have hkk := (cmpInt_eq_zero_iff k1 k2).mp hk
      subst hkk
      simp [compareBytes_self, cmpInt_self, cmpInt_eq_zero_iff]
    · have hkk : k1 ≠ k2 := fun h => hk ((cmpInt_eq_zero_iff k1 k2).mpr h)
      simp [compareBytes_self, hk, hkk]
  · have hs : s1 ≠ s2 := fun h => hb ((compareBytes_eq_zero_iff s1 s2).mpr h)
    simp [hb, hs]

theorem compare_trichotomy (s1 : List Nat) (k1 c1 : Int) (s2 : List Nat) (k2 c2 : Int) :
    compare s1 k1 c1 s2 k2 c2 = -1 ∨ compare s1 k1 c1 s2 k2 c2 = 0 ∨
      compare s1 k1 c1 s2 k2 c2 = 1 := by
  unfold compare
  by_cases hb : compareBytes s1 s2 = 0
  · by_cases hk : cmpInt k1 k2 = 0
    · simpa [hb, hk] using cmpInt_trichotomy c1 c2
    · simpa [hb, hk] using cmpInt_trichotomy k1 k2
  · simpa [hb] using compareBytes_trichotomy s1 s2

theorem compare_neg_iff (s1 : List Nat) (k1 c1 : Int) (s2 : List Nat) (k2 c2 : Int) :
    compare s1 k1 c1 s2 k2 c2 = -1 ↔
      compareBytes s1 s2 = -1 ∨
        (s1 = s2 ∧ (cmpInt k1 k2 = -1 ∨ (k1 = k2 ∧ cmpInt c1 c2 = -1))) := by
  unfold compare
  by_cases hb : compareBytes s1 s2 = 0
  · have hs := (compareBytes_eq_zero_iff s1 s2).mp hb
    subst hs
    by_cases hk : cmpInt k1 k2 = 0
    · have hkk := (cmpInt_eq_zero_iff k1 k2).mp hk
      subst hkk
      simp [compareBytes_self, cmpInt_self]
    · have hkk : k1 ≠ k2 := fun h => hk ((cmpInt_eq_zero_iff k1 k2).mpr h)
      simp [compareBytes_self, hk, hkk]
  · have hs : s1 ≠ s2 := fun h => hb ((compareBytes_eq_zero_iff s1 s2).mpr h)
    simp [hb, hs]

theorem compare_trans_neg {s1 : List Nat} {k1 c1 : Int} {s2 : List Nat} {k2 c2 : Int}
    {s3 : List Nat} {k3 c3 : Int}
    (h1 : compare s1 k1 c1 s2 k2 c2 = -1) (h2 : compare s2 k2 c2 s3 k3 c3 = -1) :
    compare s1 k1 c1 s3 k3 c3 = -1 := by
  rw [compare_neg_iff] at h1 h2 ⊢
  rcases h1 with h1 | ⟨hs, h1⟩
  · rcases h2 with h2 | ⟨hs2, h2⟩
    · exact Or.inl (compareBytes_trans_neg h1 h2)
    · exact Or.inl (hs2 ▸ h1)
  · subst hs
    rcases h2 with h2 | ⟨hs2, h2⟩
    · exact Or.inl h2
    · subst hs2
      refine Or.inr ⟨rfl, ?_⟩
      rcases h1 with h1 | ⟨hk, h1⟩
      · rcases h2 with h2 | ⟨hk2, h2⟩
        · exact Or.inl (cmpInt_trans_neg h1 h2)
        · exact Or.inl (hk2 ▸ h1)
      · subst hk
        rcases h2 with h2 | ⟨hk2, h2⟩
        · exact Or.inl h2
        · subst hk2
          exact Or.inr ⟨rfl, cmpInt_trans_neg h1 h2⟩

/-- C4: the static `compare` defines a strict total order on composite keys
(byte-lexicographic over the shared leading bytes with the shorter payload
first on a tie, then `kind`, then `ck_size`, exactly as `Cassandra.compare`
is defined): it is antisymmetric (`compare a b = -compare b a`), transitive,
returns only -1, 0 or 1, and returns 0 exactly on equal operands. -/
theorem compare_strict_total_order :
    (∀ (s1 : List Nat) (k1 c1 : Int) (s2 : List Nat) (k2 c2 : Int),
      compare s1 k1 c1 s2 k2 c2 = -compare s2 k2 c2 s1 k1 c1) ∧
    (∀ (s1 : List Nat) (k1 c1 : Int) (s2 : List Nat) (k2 c2 : Int)
        (s3 : List Nat) (k3 c3 : Int),
      compare s1 k1 c1 s2 k2 c2 = -1 → compare s2 k2 c2 s3 k3 c3 = -1 →
        compare s1 k1 c1 s3 k3 c3 = -1) ∧
    (∀ (s1 : List Nat) (k1 c1 : Int) (s2 : List Nat) (k2 c2 : Int),
      compare s1 k1 c1 s2 k2 c2 = -1 ∨ compare s1 k1 c1 s2 k2 c2 = 0 ∨
        compare s1 k1 c1 s2 k2 c2 = 1) ∧
    (∀ (s1 : List Nat) (k1 c1 : Int) (s2 : List Nat) (k2 c2 : Int),
      compare s1 k1 c1 s2 k2 c2 = 0 ↔ s1 = s2 ∧ k1 = k2 ∧ c1 = c2) :=
  ⟨compare_antisym,
   fun _ _ _ _ _ _ _ _ _ h1 h2 => compare_trans_neg h1 h2,
   compare_trichotomy,
   compare_eq_zero_iff⟩

/-- Witness for C4: the transitivity component applied at concrete keys
`[1] < [1,5] < [2]` (the first two also exercise the shorter-sorts-first
tie rule), with both hypotheses discharged by evaluation. -/
theorem compare_strict_total_order_witness :
    compare [1] 0 1 [2] 7 2 = -1 :=
  compare_strict_total_order.2.1 [1] 0 1 [1, 5] 3 1 [2] 7 2 (by decide) (by decide)

/-- A range tombstone (spec §3): a deletion directive covering a
contiguous span of clustering keys, with per-boundary inclusive/exclusive
kinds and the tombstone's own write timestamp. -/
structure RangeTombstone where
  startKey : CompositeKey
  startInclusive : Bool
  endKey : CompositeKey
  endInclusive : Bool
  timestamp : Int
deriving DecidableEq, Repr

/-- Does the clustering key satisfy the tombstone's start boundary
(at-or-after when inclusive, strictly after when exclusive)? -/
def matchesStart (ck : CompositeKey) (rt : RangeTombstone) : Bool :=
  if rt.startInclusive then decide (0 ≤ compareKey ck rt.startKey)
  else decide (0 < compareKey ck rt.startKey)

/-- Does the clustering key satisfy the tombstone's end boundary
(at-or-before when inclusive, strictly before when exclusive)? -/
def matchesEnd (ck : CompositeKey) (rt : RangeTombstone) : Bool :=
  if rt.endInclusive then decide (compareKey ck rt.endKey ≤ 0)
  else decide (compareKey ck rt.endKey < 0)

/-- Modelled from the spec: `compareRangeTombstone` (declared at
cassandra_compaction_filter.h:82-84; its body is not among the provided
sources).  Tests whether the clustering key (payload, size and fragment
count packaged as a `CompositeKey`) lies inside the tombstone's span,
honouring each boundary's inclusive/exclusive kind via the Comparator
(spec §4.2). -/
def compareRangeTombstone (ck : CompositeKey) (rt : RangeTombstone) : Bool :=
  matchesStart ck rt && matchesEnd ck rt

/-- Per-cell marker metadata (spec §3): a liveness/deletion timestamp,
whether the marker is a deletion (tombstone), and an optional TTL
expiration instant (absent for non-expiring cells). -/
structure Marker where
  timestamp : Int
  isDeletion : Bool
  expirationTime : Option Int
deriving DecidableEq, Repr

/-- Has the marker's TTL instant passed at time `now`?  A marker with no
TTL never expires. -/
def markerExpired (now : Int) (m : Marker) : Bool :=
  match m.expirationTime with
  | some t => decide (t ≤ now)
  | none => false

/-- The filter's configuration fields, as stored by the constructor
(cassandra_compaction_filter.h:57-60). -/
structure FilterConfig where
  purge_ttl_on_expiration : Bool
  ignore_range_delete_on_read : Bool
  gc_grace_period : Int
  partition_key_length : Nat
deriving DecidableEq, Repr

/-- Modelled from the spec: `ShouldDropByMarker`
(cassandra_compaction_filter.h:78-80; its body is not among the provided
sources).  Policy of spec §4.4, in order: (1) with
`purge_ttl_on_expiration` set, a value all of whose markers carry expired
TTL instants is dropped outright; (2) otherwise with
`ignore_range_delete_on_read` set, a deletion marker timestamped at or
after the row's own timestamp `time_stamp` drops immediately, bypassing
the grace period; (3) otherwise a deletion marker strictly older than
`now - gc_grace_period` drops; anything else — in particular a value with
no markers at all — is kept.  `key`, `ck_size` and `pkLength` mirror the
C++ signature. -/
def shouldDropByMarker (cfg : FilterConfig) (now : Int) (key : List Nat)
    (markers : List Marker) (time_stamp : Int) (ck_size : Int)
    (pkLength : Nat) : Bool :=
  if cfg.purge_ttl_on_expiration && !markers.isEmpty &&
      markers.all (markerExpired now) then
    true
  else if cfg.ignore_range_delete_on_read then
    markers.any (fun m => m.isDeletion && decide (time_stamp ≤ m.timestamp))
  else
    markers.any (fun m =>
      m.isDeletion && decide (m.timestamp < now - cfg.gc_grace_period))

/-- Opaque handle standing for a `DB*`; `Option DBHandle` models the
nullable pointer. -/
abbrev DBHandle := Nat

/-- Opaque handle standing for a `ColumnFamilyHandle*`. -/
abbrev CfHandle := Nat

/-- The slice of `ReadOptions` this filter touches. -/
structure ReadOptions where
  ignore_range_deletions : Bool
deriving DecidableEq, Repr

/-- The filter's private state (cassandra_compaction_filter.h:56-63): the
configuration, the two metadata handle fields (`none` models a null
pointer) and the stored read options. -/
structure FilterState where
  cfg : FilterConfig
  meta_cf_handle_ : Option CfHandle
  meta_db_ : Option DBHandle
  meta_read_options_ : ReadOptions
deriving DecidableEq, Repr

/-- Embedding of the inline constructor
`CassandraCompactionFilter::CassandraCompactionFilter`
(cassandra_compaction_filter.h:35-46): stores the four options,
initialises both metadata handle fields to null, and sets
`meta_read_options_.ignore_range_deletions = false`. -/
def cassandraCompactionFilter (purge_ttl_on_expiration : Bool)
    (ignore_range_delete_on_read : Bool) (gc_grace_period_in_seconds : Int)
    (partition_key_length : Nat) : FilterState :=
  { cfg := ⟨purge_ttl_on_expiration, ignore_range_delete_on_read,
      gc_grace_period_in_seconds, partition_key_length⟩
    meta_cf_handle_ := none
    meta_db_ := none
    meta_read_options_ := ⟨false⟩ }

/-- Modelled from the spec: `SetMetaCfHandle`
(cassandra_compaction_filter.h:54; its body is not among the provided
sources): the one-time setter storing the metadata DB and column-family
handles (spec §4.3, §5). -/
def setMetaCfHandle (st : FilterState) (meta_db : DBHandle)
    (meta_cf_handle : CfHandle) : FilterState :=
  { st with meta_db_ := some meta_db, meta_cf_handle_ := some meta_cf_handle }

/-- The resolved partition-level state (spec §3): the partition's own
delete timestamp, if any, and the range tombstones active for the
partition. -/
structure PartitionValue where
  deleteTimestamp : Option Int
  rangeTombstones : List RangeTombstone
deriving DecidableEq, Repr

/-- The `PartitionValue` recording no partition-level delete. -/
def emptyPartitionValue : PartitionValue := ⟨none, []⟩

/-- Outcome of one metadata-store point read (spec §6): a stored header,
no record at all, or an I/O error with a status code. -/
inductive MetaResult where
  | found (v : PartitionValue)
  | notFound
  | ioError (code : Nat)
deriving DecidableEq, Repr

/-- The metadata store's point-read interface
`Get(read_options, column_family, key)` (spec §6), keyed also by the DB
handle the filter was given. -/
abbrev MetaStore := DBHandle → CfHandle → ReadOptions → List Nat → MetaResult

/-- Modelled from the spec: `GetPartitionHeaderByScan`
(cassandra_compaction_filter.h:67-68; its body is not among the provided
sources).  With no metadata store attached the partition header is derived
by scanning forward from the current key within the compaction's own data
stream (spec §4.3); the stream is modelled as the association of partition
keys to the header entries found alongside them, with absence meaning no
partition-level delete. -/
def getPartitionHeaderByScan (stream : List (List Nat × PartitionValue))
    (pk : List Nat) : PartitionValue :=
  match stream.find? (fun e => e.1 == pk) with
  | some e => e.2
  | none => emptyPartitionValue

/-- Modelled from the spec: `GetPartitionHeaderByPointQuery`
(cassandra_compaction_filter.h:70-71; its body is not among the provided
sources).  Issues `Get(read_options, meta_cf, pk)` against the metadata
store with the given read options; a missing record means no
partition-level delete is in effect, and a read error propagates as fatal
(spec §4.3, §7). -/
def getPartitionHeaderByPointQuery (ro : ReadOptions) (store : MetaStore)
    (meta_db : DBHandle) (meta_cf : CfHandle) (pk : List Nat) :
    Except Nat PartitionValue :=
  match store meta_db meta_cf ro pk with
  | .found v => .ok v
  | .notFound => .ok emptyPartitionValue
  | .ioError c => .error c

/-- Modelled from the spec: `GetPartitionHeader`
(cassandra_compaction_filter.h:65; its body is not among the provided
sources).  Loads the two handle fields; if either is null it falls back to
the scan strategy, otherwise it performs the point query with the filter's
stored `meta_read_options_` (spec §4.3). -/
def getPartitionHeader (st : FilterState) (store : MetaStore)
    (stream : List (List Nat × PartitionValue)) (pk : List Nat) :
    Except Nat PartitionValue :=
  match st.meta_db_, st.meta_cf_handle_ with
  | some meta_db, some meta_cf =>
      getPartitionHeaderByPointQuery st.meta_read_options_ store meta_db
        meta_cf pk
  | _, _ => .ok (getPartitionHeaderByScan stream pk)

/-- Is a covering tombstone with write timestamp `ts` reclaimable at time
`now`?  Immediately when `ignore_range_delete_on_read` is set, otherwise
only once it is strictly older than the gc grace period (spec §4.4-4.5). -/
def tombstoneReclaimable (cfg : FilterConfig) (now ts : Int) : Bool :=
  cfg.ignore_range_delete_on_read || decide (ts < now - cfg.gc_grace_period)

/-- Modelled from the spec: `ShouldDropByParitionHeader`
(cassandra_compaction_filter.h:73-76; its body is not among the provided
sources).  Spec §4.5: the row is dropped when the resolved partition
delete timestamp is at or after the row's own timestamp `time_stamp`, or
some range tombstone covers the row's clustering key with a timestamp at
or after the row's, in either case subject to the grace-period rule unless
`ignore_range_delete_on_read` is set. -/
def shouldDropByParitionHeader (cfg : FilterConfig) (now : Int)
    (pv : PartitionValue) (time_stamp : Int) (ck : CompositeKey) : Bool :=
  (match pv.deleteTimestamp with
   | some t => decide (time_stamp ≤ t) && tombstoneReclaimable cfg now t
   | none => false) ||
  pv.rangeTombstones.any (fun rt =>
    compareRangeTombstone ck rt && decide (time_stamp ≤ rt.timestamp) &&
      tombstoneReclaimable cfg now rt.timestamp)

/-- The compaction driver's decision enum (spec §4.6, §6), including the
key-range-skip variant this filter never uses. -/
inductive Decision where
  | kKeep
  | kRemove
  | kChangeValue
  | kRemoveAndSkipUntil
deriving DecidableEq, Repr

/-- The decoded form of a stored value: its markers, the row's write
timestamp and its decoded clustering key.  The binary decode layer is out
of scope (spec §1), so values enter the model already decoded. -/
structure RowValue where
  markers : List Marker
  rowTimestamp : Int
  clusteringKey : CompositeKey
deriving DecidableEq, Repr

/-- What one `FilterV2` invocation hands back to the compaction driver:
the decision, the `new_value` output (written only for `kChangeValue`) and
the `skip_until` output. -/
structure FilterOutcome where
  decision : Decision
  newValue : Option RowValue
  skipUntil : Option (List Nat)
deriving DecidableEq, Repr

/-- Rewrites expired TTL cells into explicit deletion markers: the
`kChangeValue` payload used when `purge_ttl_on_expiration` is off
(spec §4.6). -/
def convertExpiredToTombstones (value : RowValue) : RowValue :=
  { value with markers := value.markers.map (fun m =>
      { m with isDeletion := true, expirationTime := none }) }

/-- The partition-key split point for a stored key: the configured
`partition_key_length` when nonzero, else the format-embedded length
supplied by the (out-of-scope) decode layer (spec §4.6). -/
def effectivePkLength (cfg : FilterConfig) (embedded : Nat) : Nat :=
  if cfg.partition_key_length ≠ 0 then cfg.partition_key_length else embedded

/-- Modelled from the spec: `FilterV2`
(cassandra_compaction_filter.h:50-52; its body is not among the provided
sources).  The orchestrator of spec §4.6: split off the partition key,
resolve the partition header (propagating a metadata-store failure as the
invocation's error), drop on partition/range coverage, else drop by the
row's own markers, else convert fully TTL-expired values to tombstones
when `purge_ttl_on_expiration` is off, else keep.  `level` and
`value_type` mirror the C++ signature. -/
def filterV2 (st : FilterState) (store : MetaStore)
    (stream : List (List Nat × PartitionValue)) (now : Int) (level : Int)
    (key : List Nat) (value_type : Nat) (embeddedPkLength : Nat)
    (value : RowValue) : Except Nat FilterOutcome :=
  match getPartitionHeader st store stream
      (key.take (effectivePkLength st.cfg embeddedPkLength)) with
  | .error c => .error c
  | .ok pv =>
    if shouldDropByParitionHeader st.cfg now pv value.rowTimestamp
        value.clusteringKey then
      .ok ⟨.kRemove, none, none⟩
    else if shouldDropByMarker st.cfg now key value.markers value.rowTimestamp
        value.clusteringKey.ckSize (effectivePkLength st.cfg embeddedPkLength) then
      .ok ⟨.kRemove, none, none⟩
    else if !st.cfg.purge_ttl_on_expiration && !value.markers.isEmpty &&
        value.markers.all (markerExpired now) then
      .ok ⟨.kChangeValue, some (convertExpiredToTombstones value), none⟩
    else
      .ok ⟨.kKeep, none, none⟩

/-- C1 (amended): every metadata-store point lookup performed on behalf of
`GetPartitionHeader` goes through `GetPartitionHeaderByPointQuery` with the
filter's stored `meta_read_options_`, and for a filter built by the
constructor (with its handles then set) those read options have
`ignore_range_deletions = false`. -/
theorem point_query_read_options (p i : Bool) (g : Int) (l : Nat)
    (db : DBHandle) (cf : CfHandle) (store : MetaStore)
    (stream : List (List Nat × PartitionValue)) (pk : List Nat) :
    (setMetaCfHandle (cassandraCompactionFilter p i g l) db
        cf).meta_read_options_.ignore_range_deletions = false ∧
    getPartitionHeader (setMetaCfHandle (cassandraCompactionFilter p i g l) db cf)
        store stream pk =
      getPartitionHeaderByPointQuery
        (setMetaCfHandle (cassandraCompactionFilter p i g l) db
          cf).meta_read_options_ store db cf pk :=
  ⟨rfl, rfl⟩

/-- Counterexample for C1 as stated: the constructor initialises
`meta_read_options_.ignore_range_deletions` to `false`, not `true`
(cassandra_compaction_filter.h:45), so the read options carried into the
point query do not have `ignore_range_deletions` set to true. -/
theorem constructor_sets_ignore_range_deletions_false :
    (cassandraCompactionFilter true true 864000
        16).meta_read_options_.ignore_range_deletions = false := rfl

/-- C2: with `ignore_range_delete_on_read` disabled, `ShouldDropByMarker`
is exact at the grace-period boundary: a deletion marker timestamped
exactly `now - gc_grace_period` is retained, while one timestamped one
second older is dropped. -/
theorem shouldDropByMarker_grace_boundary (purge : Bool) (gc now time_stamp ck_size : Int)
    (pkLength : Nat) (key : List Nat) :
    shouldDropByMarker ⟨purge, false, gc, pkLength⟩ now key
        [⟨now - gc, true, none⟩] time_stamp ck_size pkLength = false ∧
    shouldDropByMarker ⟨purge, false, gc, pkLength⟩ now key
        [⟨now - gc - 1, true, none⟩] time_stamp ck_size pkLength = true := by
  constructor
  · simp [shouldDropByMarker, markerExpired]
  · simp [shouldDropByMarker, markerExpired]

/-- C3 (amended): coverage reported by `compareRangeTombstone` is
boundary-exact: a clustering key exactly equal to an exclusive boundary is
never reported as covered, and a clustering key exactly equal to an
inclusive boundary is reported as covered exactly when it also satisfies
the tombstone's other boundary. -/
theorem compareRangeTombstone_boundary_exact (ck : CompositeKey)
    (rt : RangeTombstone) :
    (rt.startInclusive = false → compareKey ck rt.startKey = 0 →
      compareRangeTombstone ck rt = false) ∧
    (rt.endInclusive = false → compareKey ck rt.endKey = 0 →
      compareRangeTombstone ck rt = false) ∧
    (rt.startInclusive = true → compareKey ck rt.startKey = 0 →
      compareRangeTombstone ck rt = matchesEnd ck rt) ∧
    (rt.endInclusive = true → compareKey ck rt.endKey = 0 →
      compareRangeTombstone ck rt = matchesStart ck rt) := by
  refine ⟨?_, ?_, ?_, ?_⟩ <;> intro h1 h2 <;>
    simp [compareRangeTombstone, matchesStart, matchesEnd, h1, h2]

/-- Witness for C3's theorem: a key sitting exactly on an inclusive start
boundary, where coverage reduces to the end-boundary test, with both
hypotheses discharged by evaluation. -/
theorem compareRangeTombstone_boundary_exact_witness :
    compareRangeTombstone ⟨[3], 0, 1⟩ ⟨⟨[3], 0, 1⟩, true, ⟨[9], 0, 1⟩, false, 5⟩ =
      matchesEnd ⟨[3], 0, 1⟩ ⟨⟨[3], 0, 1⟩, true, ⟨[9], 0, 1⟩, false, 5⟩ :=
  (compareRangeTombstone_boundary_exact ⟨[3], 0, 1⟩
    ⟨⟨[3], 0, 1⟩, true, ⟨[9], 0, 1⟩, false, 5⟩).2.2.1 rfl (by decide)

/-- Counterexample for C3 as stated: for the degenerate tombstone spanning
`[k, k)` with inclusive start and exclusive end, the key `k` is exactly
equal to the inclusive start boundary and yet is not reported as covered
(the exclusive end boundary excludes it). -/
theorem compareRangeTombstone_inclusive_not_always_covered :
    RangeTombstone.startInclusive ⟨⟨[7], 0, 1⟩, true, ⟨[7], 0, 1⟩, false, 5⟩ = true ∧
    compareKey ⟨[7], 0, 1⟩
      (RangeTombstone.startKey ⟨⟨[7], 0, 1⟩, true, ⟨[7], 0, 1⟩, false, 5⟩) = 0 ∧
    compareRangeTombstone ⟨[7], 0, 1⟩
      ⟨⟨[7], 0, 1⟩, true, ⟨[7], 0, 1⟩, false, 5⟩ = false := by
  refine ⟨rfl, by decide, by decide⟩

/-- C5: TTL monotonicity of `ShouldDropByMarker`: with
`purge_ttl_on_expiration` set, if every marker's TTL instant has passed at
time `now` and the function returns drop at `now`, it also returns drop at
every later time `now' ≥ now`. -/
theorem shouldDropByMarker_ttl_monotone (cfg : FilterConfig)
    (now now' time_stamp ck_size : Int) (key : List Nat)
    (markers : List Marker) (pkLength : Nat)
    (hp : cfg.purge_ttl_on_expiration = true)
    (hall : markers.all (markerExpired now) = true)
    (hdrop : shouldDropByMarker cfg now key markers time_stamp ck_size
      pkLength = true)
    (hle : now ≤ now') :
    shouldDropByMarker cfg now' key markers time_stamp ck_size
      pkLength = true := by
  have hne : markers.isEmpty = false := by
    cases markers with
    | nil => simp [shouldDropByMarker] at hdrop
    | cons m ms => rfl
  have hall' : markers.all (markerExpired now') = true := by
    rw [List.all_eq_true] at hall ⊢
    intro m hm
    have hx := hall m hm
    unfold markerExpired at hx ⊢
    cases het : m.expirationTime with
    | none => rw [het] at hx; simp at hx
    | some t =>
      rw [het] at hx
      simp only [decide_eq_true_eq] at hx ⊢
      omega
  unfold shouldDropByMarker
  simp [hp, hne, hall']

/-- Witness for C5: a single expired cell (TTL instant 5, `now = 5`,
`now' = 8`) under a purge-on-expiration configuration, with every
hypothesis discharged by evaluation. -/
theorem shouldDropByMarker_ttl_monotone_witness :
    shouldDropByMarker ⟨true, false, 10, 0⟩ 8 [] [⟨0, false, some 5⟩] 0 0 0 = true :=
  shouldDropByMarker_ttl_monotone ⟨true, false, 10, 0⟩ 5 8 0 0 []
    [⟨0, false, some 5⟩] 0 rfl (by decide) (by decide) (by decide)

/-- C6: every successful `FilterV2` invocation returns one of `kKeep`,
`kRemove` or `kChangeValue` — never the key-range-skip decision — writes
`new_value` only in the `kChangeValue` case, and never writes
`skip_until`. -/
theorem filterV2_decision_frame (st : FilterState) (store : MetaStore)
    (stream : List (List Nat × PartitionValue)) (now level : Int)
    (key : List Nat) (value_type embeddedPkLength : Nat) (value : RowValue)
    (out : FilterOutcome)
    (h : filterV2 st store stream now level key value_type embeddedPkLength
      value = .ok out) :
    (out.decision = .kKeep ∨ out.decision = .kRemove ∨
      out.decision = .kChangeValue) ∧
    (out.newValue ≠ none → out.decision = .kChangeValue) ∧
    out.skipUntil = none := by
  unfold filterV2 at h
  split at h
  · exact absurd h (by simp)
  · split_ifs at h <;> rw [Except.ok.injEq] at h <;> subst h <;> simp

/-- Witness for C6: a concrete invocation (empty value, no metadata store)
that returns `kKeep`, with the invocation hypothesis discharged by
evaluation. -/
theorem filterV2_decision_frame_witness :
    ((⟨.kKeep, none, none⟩ : FilterOutcome).decision = .kKeep ∨
      (⟨.kKeep, none, none⟩ : FilterOutcome).decision = .kRemove ∨
      (⟨.kKeep, none, none⟩ : FilterOutcome).decision = .kChangeValue) ∧
    ((⟨.kKeep, none, none⟩ : FilterOutcome).newValue ≠ none →
      (⟨.kKeep, none, none⟩ : FilterOutcome).decision = .kChangeValue) ∧
    (⟨.kKeep, none, none⟩ : FilterOutcome).skipUntil = none :=
  filterV2_decision_frame (cassandraCompactionFilter false false 0 0)
    (fun _ _ _ _ => .notFound) [] 0 0 [] 0 0 ⟨[], 0, ⟨[], 0, 0⟩⟩
    ⟨.kKeep, none, none⟩ rfl

/-- C7: partition-header retrieval error policy: a null metadata DB or
column-family handle means the header is derived by scan; with both
handles set, a plain not-found resolves to the empty header (no
partition-level delete in effect), while a store error propagates as the
header resolution's — and the whole `FilterV2` invocation's — error,
never a default decision. -/
theorem getPartitionHeader_error_policy (st : FilterState) (store : MetaStore)
    (stream : List (List Nat × PartitionValue)) (pk : List Nat)
    (db : DBHandle) (cf : CfHandle) (c : Nat) (now level : Int)
    (key : List Nat) (value_type embeddedPkLength : Nat) (value : RowValue) :
    (st.meta_db_ = none ∨ st.meta_cf_handle_ = none →
      getPartitionHeader st store stream pk =
        .ok (getPartitionHeaderByScan stream pk)) ∧
    (st.meta_db_ = some db → st.meta_cf_handle_ = some cf →
      store db cf st.meta_read_options_ pk = .notFound →
      getPartitionHeader st store stream pk = .ok emptyPartitionValue) ∧
    (st.meta_db_ = some db → st.meta_cf_handle_ = some cf →
      store db cf st.meta_read_options_ pk = .ioError c →
      getPartitionHeader st store stream pk = .error c) ∧
    (st.meta_db_ = some db → st.meta_cf_handle_ = some cf →
      store db cf st.meta_read_options_
          (key.take (effectivePkLength st.cfg embeddedPkLength)) = .ioError c →
      filterV2 st store stream now level key value_type embeddedPkLength
        value = .error c) := by
  refine ⟨?_, ?_, ?_, ?_⟩
  · intro h
    unfold getPartitionHeader
    rcases h with h | h
    · rw [h]
    · rw [h]
      cases st.meta_db_ <;> rfl
  · intro hdb hcf hs
    unfold getPartitionHeader
    rw [hdb, hcf]
    show getPartitionHeaderByPointQuery st.meta_read_options_ store db cf pk =
      Except.ok emptyPartitionValue
    unfold getPartitionHeaderByPointQuery
    rw [hs]
  · intro hdb hcf hs
    unfold getPartitionHeader
    rw [hdb, hcf]
    show getPartitionHeaderByPointQuery st.meta_read_options_ store db cf pk =
      Except.error c
    unfold getPartitionHeaderByPointQuery
    rw [hs]
  · intro hdb hcf hs
    have hh : getPartitionHeader st store stream
        (key.take (effectivePkLength st.cfg embeddedPkLength)) =
        Except.error c := by
      unfold getPartitionHeader
      rw [hdb, hcf]
      show getPartitionHeaderByPointQuery st.meta_read_options_ store db cf
        (key.take (effectivePkLength st.cfg embeddedPkLength)) = Except.error c
      unfold getPartitionHeaderByPointQuery
      rw [hs]
    unfold filterV2
    rw [hh]

/-- Witness for C7: with handles set, a store failing with code 3 makes
both the header resolution and the whole invocation fail with code 3, a
not-found store yields the empty header, and unset handles resolve by
scan; each hypothesis is discharged by evaluation. -/
theorem getPartitionHeader_error_policy_witness :
    getPartitionHeader (cassandraCompactionFilter false false 0 0)
        (fun _ _ _ _ => .ioError 3) [] [] =
      .ok (getPartitionHeaderByScan [] []) ∧
    getPartitionHeader (setMetaCfHandle (cassandraCompactionFilter false false 0 0) 1 2)
        (fun _ _ _ _ => .notFound) [] [] = .ok emptyPartitionValue ∧
    getPartitionHeader (setMetaCfHandle (cassandraCompactionFilter false false 0 0) 1 2)
        (fun _ _ _ _ => .ioError 3) [] [] = .error 3 ∧
    filterV2 (setMetaCfHandle (cassandraCompactionFilter false false 0 0) 1 2)
        (fun _ _ _ _ => .ioError 3) [] 0 0 [] 0 0 ⟨[], 0, ⟨[], 0, 0⟩⟩ =
      .error 3 :=
  ⟨(getPartitionHeader_error_policy (cassandraCompactionFilter false false 0 0)
      (fun _ _ _ _ => .ioError 3) [] [] 1 2 3 0 0 [] 0 0
      ⟨[], 0, ⟨[], 0, 0⟩⟩).1 (Or.inl rfl),
   (getPartitionHeader_error_policy
      (setMetaCfHandle (cassandraCompactionFilter false false 0 0) 1 2)
      (fun _ _ _ _ => .notFound) [] [] 1 2 3 0 0 [] 0 0
      ⟨[], 0, ⟨[], 0, 0⟩⟩).2.1 rfl rfl rfl,
   (getPartitionHeader_error_policy
      (setMetaCfHandle (cassandraCompactionFilter false false 0 0) 1 2)
      (fun _ _ _ _ => .ioError 3) [] [] 1 2 3 0 0 [] 0 0
      ⟨[], 0, ⟨[], 0, 0⟩⟩).2.2.1 rfl rfl rfl,
   (getPartitionHeader_error_policy
      (setMetaCfHandle (cassandraCompactionFilter false false 0 0) 1 2)
      (fun _ _ _ _ => .ioError 3) [] [] 1 2 3 0 0 [] 0 0
      ⟨[], 0, ⟨[], 0, 0⟩⟩).2.2.2 rfl rfl rfl⟩

/-- C9: determinism of `FilterV2`: with the configuration, handle setting,
metadata-store state, compaction stream and clock all fixed, two
invocations on equal inputs produce equal results — the same decision, and
the same `new_value` when one is produced. -/
theorem filterV2_deterministic (st : FilterState) (store : MetaStore)
    (stream : List (List Nat × PartitionValue)) (now level : Int)
    (key1 key2 : List Nat) (vt1 vt2 epk1 epk2 : Nat) (value1 value2 : RowValue)
    (hk : key1 = key2) (hvt : vt1 = vt2) (he : epk1 = epk2)
    (hv : value1 = value2) :
    filterV2 st store stream now level key1 vt1 epk1 value1 =
      filterV2 st store stream now level key2 vt2 epk2 value2 := by
  subst hk; subst hvt; subst he; subst hv; rfl

/-- Witness for C9: two runs on the same concrete key/value under the same
concrete state are equal, every equality hypothesis discharged by `rfl`. -/
theorem filterV2_deterministic_witness :
    filterV2 (cassandraCompactionFilter true false 10 0)
        (fun _ _ _ _ => .notFound) [] 7 1 [4] 0 1 ⟨[⟨0, true, none⟩], 0, ⟨[], 0, 0⟩⟩ =
      filterV2 (cassandraCompactionFilter true false 10 0)
        (fun _ _ _ _ => .notFound) [] 7 1 [4] 0 1 ⟨[⟨0, true, none⟩], 0, ⟨[], 0, 0⟩⟩ :=
  filterV2_deterministic (cassandraCompactionFilter true false 10 0)
    (fun _ _ _ _ => .notFound) [] 7 1 [4] [4] 0 0 1 1
    ⟨[⟨0, true, none⟩], 0, ⟨[], 0, 0⟩⟩ ⟨[⟨0, true, none⟩], 0, ⟨[], 0, 0⟩⟩
    rfl rfl rfl rfl

/-- C10: immediately after construction both metadata handle fields are
null, so header resolution — and hence every `FilterV2` invocation made
before any `SetMetaCfHandle` call — uses the scan strategy and never
consults the metadata store: the result equals the scan result and is
independent of the store. -/
theorem constructed_filter_resolves_by_scan (p i : Bool) (g : Int) (l : Nat)
    (store store' : MetaStore) (stream : List (List Nat × PartitionValue))
    (pk : List Nat) (now level : Int) (key : List Nat)
    (value_type embeddedPkLength : Nat) (value : RowValue) :
    (cassandraCompactionFilter p i g l).meta_db_ = none ∧
    (cassandraCompactionFilter p i g l).meta_cf_handle_ = none ∧
    getPartitionHeader (cassandraCompactionFilter p i g l) store stream pk =
      .ok (getPartitionHeaderByScan stream pk) ∧
    filterV2 (cassandraCompactionFilter p i g l) store stream now level key
        value_type embeddedPkLength value =
      filterV2 (cassandraCompactionFilter p i g l) store' stream now level key
        value_type embeddedPkLength value :=
  ⟨rfl, rfl, rfl, rfl⟩

end Cassandra
